import Mathlib

/-!
Verification of the Notion CMS Adapter core

A shallow embedding of the schema-driven property adapter: the field
codecs of `schema.ts`, the record transcoder (`processRow`,
`createMutateData`), the collection resolver (`createUseDatabaseFunction`
in its static-table and discovery modes) and the by-id operations of the
CMS access layer (`queryOneById`, `updateEntry`, `deleteEntry`,
`queryKV` via `processKVResults`).

Errors are modelled as the `Error(...)` message strings thrown by the
source; fallible computations live in `Except String`.
-/

namespace NotionCMS

/-- A select / multi-select / status option as it appears on the wire. -/
structure SelectOption where
  name : String
deriving DecidableEq, Repr

/-- The wire payload of a `date` property: `start` is a string, `end` may
be `null` (`none`). -/
structure DateValue where
  start : String
  end' : Option String
deriving DecidableEq, Repr

/-- The domain `DateRange` type exported by `schema.ts`: both bounds are
plain strings. -/
structure DateRange where
  start : String
  end' : String
deriving DecidableEq, Repr

/-- One file descriptor of a `files` property: internally hosted
(`{file: {url}}`), externally linked (`{external: {url}}`), or a
descriptor carrying neither key. -/
inductive FileDescriptor
  | internal (url : String)
  | external (url : String)
  | other
deriving DecidableEq, Repr

/-- One rich-text span; only its `plain_text` projection matters here. -/
structure TextSpan where
  plain_text : String
deriving DecidableEq, Repr

/-- The tagged wire value of one property (`{type, <type>: payload}`). -/
inductive WireValue
  | checkbox (b : Bool)
  | number (n : Option Int)
  | select (o : Option SelectOption)
  | multiSelect (os : List SelectOption)
  | date (d : Option DateValue)
  | files (fs : List FileDescriptor)
  | richText (ts : List TextSpan)
  | title (ts : List TextSpan)
  | relation (ids : List String)
  | otherTag (tag : String)
deriving DecidableEq, Repr

/-- The `type` tag string of a wire value. -/
def WireValue.tag : WireValue → String
  | .checkbox _ => "checkbox"
  | .number _ => "number"
  | .select _ => "select"
  | .multiSelect _ => "multi_select"
  | .date _ => "date"
  | .files _ => "files"
  | .richText _ => "rich_text"
  | .title _ => "title"
  | .relation _ => "relation"
  | .otherTag t => t

/-- A decoded domain value (the runtime JS value a handler returns). -/
inductive DomainValue
  | str (s : String)
  | strs (l : List String)
  | boolean (b : Bool)
  | num (n : Int)
  | range (r : DateRange)
  | jsUndefined
  | jsNull
  | wire (w : WireValue)
deriving DecidableEq, Repr

/-- Embedding of `typeof v === 'string'` on a decoded domain value. -/
def DomainValue.isString : DomainValue → Bool
  | .str _ => true
  | _ => false

/-! ## Association-list operations mirroring JS object / `Map` semantics -/

/-- Embedding of `obj[k]` / `map.get(k)`: first (and only) binding of `k`. -/
def alGet {α : Type} (l : List (String × α)) (k : String) : Option α :=
  match l with
  | [] => none
  | (k', v) :: rest => if k' = k then some v else alGet rest k

/-- Embedding of `obj[k] = v` / `map.set(k, v)`: overwrite in place, else append. -/
def alSet {α : Type} (l : List (String × α)) (k : String) (v : α) :
    List (String × α) :=
  match l with
  | [] => [(k, v)]
  | (k', v') :: rest =>
    if k' = k then (k, v) :: rest else (k', v') :: alSet rest k v


/-! ## Field codecs (`schema.ts`) -/

/-- Embedding of `packPlainText`: concatenate the `plain_text` of every span, in
order, with no separator. -/
def packPlainText (arr : List TextSpan) : String :=
  arr.foldl (fun acc cur => acc ++ cur.plain_text) ""

/-- Embedding of `multi_select().strings()` handler: option list to name list. -/
def multiSelectStringsHandler (value : List SelectOption) : List String :=
  value.map (·.name)

/-- Embedding of `multi_select().strings()` composer: name list to option list. -/
def multiSelectStringsComposer (value : List String) : List SelectOption :=
  value.map (fun name => ⟨name⟩)

/-- Embedding of `multi_select().stringEnums(values...)` handler: maps to names, then
fails with `Error('Invalid status')` unless every name is allowed. -/
def multiSelectStringEnumsHandler (values : List String)
    (value : List SelectOption) : Except String (List String) :=
  let names := value.map (·.name)
  if names.all (fun name => values.contains name) then .ok names
  else .error "Invalid status"

/-- Embedding of `multi_select().stringEnums(values...)` composer: fails with
`Error('Invalid status')` unless every supplied name is allowed. -/
def multiSelectStringEnumsComposer (values : List String)
    (value : List String) : Except String (List SelectOption) :=
  if value.all (fun name => values.contains name) then
    .ok (value.map (fun name => ⟨name⟩))
  else .error "Invalid status"

/-- JS string coercion of `string | undefined` (`'' + undefined` renders
as `"undefined"`). -/
def jsShowOptString : Option String → String
  | some s => s
  | none => "undefined"

/-- Embedding of `select().stringEnum(values...)` handler: `value?.name` must be in
the allow-list, else `Error('Invalid status: ' + name)`. -/
def selectStringEnumHandler (values : List (Option String))
    (value : Option SelectOption) : Except String (Option String) :=
  let name := value.map (·.name)
  if values.contains name then .ok name
  else .error ("Invalid status: " ++ jsShowOptString name)

/-- Embedding of `select().stringEnum(values...)` composer: the value must be in the
allow-list, else `Error('Invalid status: ' + value)`; a truthy value
becomes `{name: value}`, a falsy one (undefined or `''`) becomes `null`. -/
def selectStringEnumComposer (values : List (Option String))
    (value : Option String) : Except String (Option SelectOption) :=
  if values.contains value then
    .ok (match value with
      | some s => if s = "" then none else some ⟨s⟩
      | none => none)
  else .error ("Invalid status: " ++ jsShowOptString value)

/-- Embedding of `date().startDate()` handler: `value?.start ?? ''`. -/
def dateStartDateHandler (value : Option DateValue) : String :=
  (value.map (·.start)).getD ""

/-- Embedding of `date().startDate()` composer: `{start: value}` (no end). -/
def dateStartDateComposer (value : String) : Option DateValue :=
  some ⟨value, none⟩

/-- Embedding of `date().dateRange()` handler: both bounds default to `''`. -/
def dateRangeHandler (value : Option DateValue) : DateRange :=
  match value with
  | none => ⟨"", ""⟩
  | some d => ⟨d.start, d.end'.getD ""⟩

/-- Embedding of `date().dateRange()` composer: the identity `value => value`; the
`DateRange` object embeds into the wire payload with its string `end`. -/
def dateRangeComposer (value : DateRange) : Option DateValue :=
  some ⟨value.start, some value.end'⟩

/-- The URL a single file descriptor resolves to, if any: the hosted
`file.url` first, else the `external.url`, else nothing. -/
def resolveFileUrl : FileDescriptor → Option String
  | .internal url => some url
  | .external url => some url
  | .other => none

/-- Embedding of `files().urls()` handler: the source's `reduce`, appending each
resolved URL and skipping descriptors that yield none. -/
def filesUrlsHandler (value : List FileDescriptor) : List String :=
  value.foldl (fun acc file =>
    match resolveFileUrl file with
    | none => acc
    | some result => acc ++ [result]) []

/-! ## Pages and schema definitions -/

/-- The parent reference of a page: whether it is a `database_id` parent
and, if so, which database. -/
structure Parent where
  isDatabase : Bool
  databaseId : String
deriving DecidableEq, Repr

/-- A page as returned by the store: identifier, metadata, parent, a
full/partial flag (`isFullPage`), the trash flag, and the wire field
map. -/
structure Page where
  id : String
  parent : Parent
  full : Bool
  inTrash : Bool
  createdTime : String
  lastEditedTime : String
  properties : List (String × WireValue)
deriving DecidableEq, Repr

/-- The raw input handed to a codec handler: either the payload of a
wire property or a record-metadata value (identifier, timestamps). -/
inductive RawValue
  | wire (w : WireValue)
  | meta (s : String)
deriving DecidableEq, Repr

/-- The metadata value of a page under a raw metadata key (the part
after the `__` of a metadata type tag). -/
def metaOf (page : Page) : String → String
  | "id" => page.id
  | "created_time" => page.createdTime
  | "last_edited_time" => page.lastEditedTime
  | _ => ""

/-- One schema value definition (`DBSchemaValueDefinition`): a wire type
tag, a handler, and an optional composer. Handlers and composers may
throw, so they return `Except`. -/
structure PropertyDefinition where
  type : String
  handler : RawValue → Page → Except String DomainValue
  composer : Option (DomainValue → Except String WireValue)

/-- Embedding of `isMetadataType`: metadata type tags start with `__`. -/
def isMetadataType (type : String) : Bool :=
  "__".data.isPrefixOf type.data

/-- A schema definition: field name to definition, in declaration
order. -/
abbrev Schema : Type := List (String × PropertyDefinition)

/-! ## Record transcoder -/

/-- One loop iteration of `processRow`: a metadata field reads record
metadata; an ordinary field is looked up by name in the wire field map
(failing with `Property <name> is not found`), tag-checked against the
declared type (failing with
`Property <name> type mismatch: <actual> !== <expected>`) and then
handed to the codec's handler. -/
def processField (page : Page) (key : String) (def' : PropertyDefinition) :
    Except String DomainValue :=
  if isMetadataType def'.type then
    def'.handler (.meta (metaOf page (def'.type.drop 2))) page
  else
    match alGet page.properties key with
    | none => .error ("Property " ++ key ++ " is not found")
    | some property =>
      if property.tag ≠ def'.type then
        .error ("Property " ++ key ++ " type mismatch: " ++
          property.tag ++ " !== " ++ def'.type)
      else def'.handler (.wire property) page

/-- Embedding of `processRow`: decode every declared field of a page in schema
order; the first field failure aborts the whole record. -/
def processRow (page : Page) : Schema → Except String (List (String × DomainValue))
  | [] => .ok []
  | (key, def') :: rest =>
    processField page key def' >>= fun v =>
    processRow page rest >>= fun m =>
    .ok ((key, v) :: m)

/-- Embedding of `processRows`: decode a list of pages in order; the first failing
record aborts the batch. -/
def processRows (pages : List Page) (schema : Schema) :
    Except String (List (List (String × DomainValue))) :=
  match pages with
  | [] => .ok []
  | p :: rest =>
    match processRow p schema with
    | .error e => .error e
    | .ok r =>
      match processRows rest schema with
      | .error e => .error e
      | .ok rs => .ok (r :: rs)

/-- The output of `createMutateData`: top-level mutable-metadata
parameters and the `properties` field patch. -/
structure MutateParameters where
  metaParams : List (String × WireValue)
  properties : List (String × WireValue)
deriving Repr

/-- One loop iteration of `createMutateData`: a field whose definition
has no composer fails with
`Cannot mutate property '<key>' of type '<type>': it has no composer`;
a patch key absent from the schema is a JS `TypeError` on the
`'composer' in def` test; otherwise the composer runs and the result is
destined for the field's wire name (`false` tag) or, for mutable
metadata, for a top-level parameter (`true` tag, metadata key). -/
def composeField (schema : Schema) (key : String) (value : DomainValue) :
    Except String (Bool × String × WireValue) :=
  match alGet schema key with
  | none =>
    .error "TypeError: Cannot use 'in' operator to search for 'composer' in undefined"
  | some def' =>
    match def'.composer with
    | none =>
      .error ("Cannot mutate property '" ++ key ++ "' of type '" ++
        def'.type ++ "': it has no composer")
    | some composer =>
      composer value >>= fun w =>
      if isMetadataType def'.type then .ok (true, def'.type.drop 2, w)
      else .ok (false, key, w)

/-- Embedding of `createMutateData`: iterate only the supplied domain-patch entries
in order, composing each into the metadata parameters or the
`properties` patch; the first failing entry aborts the whole patch. -/
def createMutateData (schema : Schema) :
    List (String × DomainValue) → Except String MutateParameters
  | [] => .ok ⟨[], []⟩
  | (key, value) :: rest =>
    composeField schema key value >>= fun kw =>
    createMutateData schema rest >>= fun params =>
    .ok (if kw.1 then ⟨(kw.2.1, kw.2.2) :: params.metaParams, params.properties⟩
         else ⟨params.metaParams, (kw.2.1, kw.2.2) :: params.properties⟩)

/-! ## Key-value projection -/

/-- Embedding of `row[prop]` on a decoded record: absent keys read as `undefined`. -/
def rowGet (row : List (String × DomainValue)) (prop : String) : DomainValue :=
  (alGet row prop).getD .jsUndefined

/-- The loop of `processKVResults`, threading the result object being
built. A non-string key fails with `Key is not a string`; a duplicate
key silently overwrites the earlier binding. -/
def processKVGo (keyProp valueProp : String) :
    List (List (String × DomainValue)) → List (String × DomainValue) →
    Except String (List (String × DomainValue))
  | [], acc => .ok acc
  | row :: rest, acc =>
    match rowGet row keyProp with
    | .str k => processKVGo keyProp valueProp rest (alSet acc k (rowGet row valueProp))
    | _ => .error "Key is not a string"

/-- Embedding of `processKVResults`: fold the decoded records into one object keyed
by the (string-typed) decoded key field, starting from `{}`. -/
def processKVResults (processedResults : List (List (String × DomainValue)))
    (keyProp valueProp : String) : Except String (List (String × DomainValue)) :=
  processKVGo keyProp valueProp processedResults []

/-! ## Client construction (`createClient`, option pairs) -/

/-- The store client handle: either a caller-supplied pre-built client
or one freshly constructed from a token. -/
inductive NotionClient
  | prebuilt (label : String)
  | fromToken (token : String)
deriving DecidableEq, Repr

/-- The options object of `createNotionDBClient`, with each optional key
modelled as `Option` (`'k' in options` is `isSome`). The schema registry
is carried separately by the operations below. -/
structure ClientOptions where
  notionToken : Option String
  notionClient : Option NotionClient
  dbPageId : Option String
  dbPfx : Option String
  dbMap : Option (List (String × String))
deriving Repr

/-- Embedding of `createClient`: prefer a supplied `notionClient`, else build one
from `notionToken`, else fail. -/
def createClient (options : ClientOptions) : Except String NotionClient :=
  match options.notionClient with
  | some c => .ok c
  | none =>
    match options.notionToken with
    | some t => .ok (.fromToken t)
    | none => .error "At least one of notionToken or notionClient must be provided"

/-- Embedding of `defaultDbPfx`. -/
def defaultDbPfx : String := "db: "

/-- The database-resolution mode chosen by `createUseDatabaseFunction`:
a static name-to-id table, or discovery under a container page with a
title prefix. -/
inductive ResolverMode
  | staticMap (m : List (String × String))
  | discovery (pageId : String) (pfx : String)
deriving DecidableEq, Repr

/-- Embedding of `createUseDatabaseFunction`'s mode selection: prefer `dbMap`, else
use `dbPageId` (with `dbPrefix` defaulting to the default title marker),
else fail. -/
def chooseResolverMode (options : ClientOptions) : Except String ResolverMode :=
  match options.dbMap with
  | some m => .ok (.staticMap m)
  | none =>
    match options.dbPageId with
    | some pid => .ok (.discovery pid (options.dbPfx.getD defaultDbPfx))
    | none => .error "At least one of dbMap or dbPageId must be provided"

/-- Embedding of `createNotionDBClient`'s construction phase: build the store client
and the use-database function. -/
def createNotionDBClient (options : ClientOptions) :
    Except String (NotionClient × ResolverMode) :=
  match createClient options with
  | .error e => .error e
  | .ok c =>
    match chooseResolverMode options with
    | .error e => .error e
    | .ok m => .ok (c, m)

/-! ## Collection resolver -/

/-- The characters before the first occurrence of `__`. -/
def baseNameAux : List Char → List Char
  | [] => []
  | c :: rest =>
    if c = '_' ∧ rest.head? = some '_' then []
    else c :: baseNameAux rest

/-- Embedding of `name.split('__')[0]`: the base-name portion before the first `__`
delimiter (the whole name when no delimiter occurs). -/
def baseName (name : String) : String :=
  String.mk (baseNameAux name.data)

/-- One child block of the container page: a child database with a
title, or anything else. -/
inductive Block
  | childDatabase (title : String) (id : String)
  | otherBlock
deriving DecidableEq, Repr

/-- Embedding of `fillDatabaseIdMap`: walk one listing of the container's children
and `set` every child database whose title starts with the prefix into
the cache (prefix stripped), on top of whatever the cache already
holds. -/
def fillDatabaseIdMap (children : List Block) (pfx : String)
    (cache : List (String × String)) : List (String × String) :=
  children.foldl (fun c b =>
    match b with
    | .childDatabase title id =>
      if pfx.data.isPrefixOf title.data then
        alSet c (String.mk (title.data.drop pfx.data.length)) id
      else c
    | .otherBlock => c) cache

/-- Embedding of `getDatabaseId`: on a cache miss run one discovery listing through
`fillDatabaseIdMap`, then look the name up; a missing (or falsy, i.e.
empty) id fails with `Database not found`. Returns the result and the
cache afterwards. -/
def getDatabaseId (children : List Block) (pfx : String)
    (cache : List (String × String)) (rawName : String) :
    Except String String × List (String × String) :=
  let cache1 := if (alGet cache rawName).isSome then cache
    else fillDatabaseIdMap children pfx cache
  match alGet cache1 rawName with
  | none => (.error "Database not found", cache1)
  | some id => if id = "" then (.error "Database not found", cache1) else (.ok id, cache1)

/-- The discovery-mode use-database wrapper: resolve the base name via
`getDatabaseId`, run the callback with the resolved id, and on any
error (resolution or callback) clear the entire cache before the error
propagates. `children` stands for the listing the store returns. -/
def useDatabaseDiscovery {R : Type} (children : List Block) (pfx : String)
    (cache : List (String × String)) (name : String)
    (callback : String → Except String R) :
    Except String R × List (String × String) :=
  let raw := baseName name
  match getDatabaseId children pfx cache raw with
  | (.error e, _) => (.error e, [])
  | (.ok id, cache1) =>
    match callback id with
    | .error e => (.error e, [])
    | .ok r => (.ok r, cache1)

/-- The static-table use-database wrapper: look the base name up in
`dbMap`, failing with `Database not found`, and run the callback with
the resolved id. No cache is involved. -/
def useDatabaseStatic {R : Type} (dbMap : List (String × String))
    (name : String) (callback : String → Except String R) : Except String R :=
  match alGet dbMap (baseName name) with
  | none => .error "Database not found"
  | some id => callback id

/-! ## CMS access layer (static-table mode, by-id operations) -/

/-- The store's page state: the pages the remote API can see. -/
structure StoreState where
  pages : List Page
deriving Repr

/-- Embedding of `client.pages.retrieve`: find a page by id. -/
def retrievePage (st : StoreState) (pageId : String) : Except String Page :=
  match st.pages.find? (fun p => p.id = pageId) with
  | some p => .ok p
  | none => .error "Could not find page"

/-- The schema registry lookup `dbSchemas[db]` (full logical name as
key). -/
def schemaOf (schemas : List (String × Schema)) (db : String) : Schema :=
  (alGet schemas db).getD []

/-- Embedding of `assertPageInDatabase`: resolve the database id for the logical
name, retrieve the page, require it to be full, and require its parent
to be exactly the resolved database. -/
def assertPageInDatabase (dbMap : List (String × String)) (st : StoreState)
    (db pageId : String) : Except String Unit :=
  useDatabaseStatic dbMap db (fun id =>
    match retrievePage st pageId with
    | .error e => .error e
    | .ok page =>
      if ¬ page.full then .error "Not a full page"
      else if ¬ (page.parent.isDatabase ∧ page.parent.databaseId = id) then
        .error "Page not found in database"
      else .ok ())

/-- Embedding of `queryOneById`: retrieve the page, require it full, require its
parent to be the resolved database (else `Page not found in database`),
then decode it with the schema of the full logical name. -/
def queryOneById (dbMap : List (String × String)) (schemas : List (String × Schema))
    (st : StoreState) (db pageId : String) :
    Except String (List (String × DomainValue)) :=
  useDatabaseStatic dbMap db (fun dbId =>
    match retrievePage st pageId with
    | .error e => .error e
    | .ok response =>
      if ¬ response.full then .error "Not a full page"
      else if ¬ (response.parent.isDatabase ∧ response.parent.databaseId = dbId) then
        .error "Page not found in database"
      else processRow response (schemaOf schemas db))

/-- Embedding of `client.pages.update` with a properties patch: overwrite the patched
wire fields of the addressed page, leaving every other page unchanged. -/
def updatePageProps (st : StoreState) (pageId : String)
    (patch : List (String × WireValue)) : StoreState :=
  ⟨st.pages.map (fun p =>
    if p.id = pageId then
      { p with properties := patch.foldl (fun ps kv => alSet ps kv.1 kv.2) p.properties }
    else p)⟩

/-- Embedding of `client.pages.update` with `in_trash: true`: soft-delete the
addressed page. -/
def trashPage (st : StoreState) (pageId : String) : StoreState :=
  ⟨st.pages.map (fun p => if p.id = pageId then { p with inTrash := true } else p)⟩

/-- Embedding of `updateEntry`: assert membership first, then encode the patch, then
apply it and decode the store's response. Returns the result together
with the store state afterwards. -/
def updateEntry (dbMap : List (String × String)) (schemas : List (String × Schema))
    (st : StoreState) (db pageId : String) (data : List (String × DomainValue)) :
    Except String (List (String × DomainValue)) × StoreState :=
  match assertPageInDatabase dbMap st db pageId with
  | .error e => (.error e, st)
  | .ok _ =>
    match createMutateData (schemaOf schemas db) data with
    | .error e => (.error e, st)
    | .ok params =>
      let st1 := updatePageProps st pageId params.properties
      match retrievePage st1 pageId with
      | .error e => (.error e, st1)
      | .ok result =>
        if ¬ result.full then (.error "Not a full page", st1)
        else (processRow result (schemaOf schemas db), st1)

/-- Embedding of `deleteEntry`: assert membership first, then soft-delete. Returns
the result together with the store state afterwards. -/
def deleteEntry (dbMap : List (String × String)) (st : StoreState)
    (db pageId : String) : Except String Unit × StoreState :=
  match assertPageInDatabase dbMap st db pageId with
  | .error e => (.error e, st)
  | .ok _ => (.ok (), trashPage st pageId)

/-- The pages the store returns for `databases.query` on one database
id: the non-trashed pages whose parent is that database. -/
def pagesInDb (st : StoreState) (dbId : String) : List Page :=
  st.pages.filter (fun p => p.parent.isDatabase ∧ p.parent.databaseId = dbId ∧ ¬ p.inTrash)

/-- Embedding of `query` (static-table mode, exhaustive pagination): resolve the base
name, fetch the database's pages, require them all full, and decode
them with the schema registered under the full logical name. -/
def query (dbMap : List (String × String)) (schemas : List (String × Schema))
    (st : StoreState) (db : String) :
    Except String (List (List (String × DomainValue))) :=
  useDatabaseStatic dbMap db (fun id =>
    let results := pagesInDb st id
    if results.all (·.full) then processRows results (schemaOf schemas db)
    else .error "Not all results are full page")

/-- Embedding of `queryKV` (static-table mode): decode the full database and
re-project it through `processKVResults`. -/
def queryKV (dbMap : List (String × String)) (schemas : List (String × Schema))
    (st : StoreState) (db keyProp valueProp : String) :
    Except String (List (String × DomainValue)) :=
  useDatabaseStatic dbMap db (fun id =>
    let results := pagesInDb st id
    if results.all (·.full) then
      match processRows results (schemaOf schemas db) with
      | .error e => .error e
      | .ok processedResults => processKVResults processedResults keyProp valueProp
    else .error "Not all results are full page")

/-! ## Concrete schema definitions (instances of the `schema.ts` builders) -/

/-- The `__id()` schema definition: metadata type tag `__id`, raw
identity handler, no composer. -/
def idDefinition : PropertyDefinition where
  type := "__id"
  handler := fun v _ => match v with
    | .meta s => .ok (.str s)
    | .wire w => .ok (.wire w)
  composer := none

/-- The `multi_select().strings()` schema definition: the `strings`
handler and composer behind the `multi_select` type tag. -/
def multiSelectStringsDefinition : PropertyDefinition where
  type := "multi_select"
  handler := fun v _ => match v with
    | .wire (.multiSelect os) => .ok (.strs (multiSelectStringsHandler os))
    | _ => .error "unreachable: the tag is checked before the handler runs"
  composer := some (fun v => match v with
    | .strs l => .ok (.multiSelect (multiSelectStringsComposer l))
    | _ => .error "unreachable: the composer input is a name list")

/-- The `checkbox()` raw schema definition. -/
def checkboxDefinition : PropertyDefinition where
  type := "checkbox"
  handler := fun v _ => match v with
    | .wire (.checkbox b) => .ok (.boolean b)
    | _ => .error "unreachable: the tag is checked before the handler runs"
  composer := some (fun v => match v with
    | .boolean b => .ok (.checkbox b)
    | _ => .error "unreachable: the composer input is a boolean")

/-- Two logical names registered over one physical collection: a narrow
view and a full view of `projects`. -/
def viewSchemas : List (String × Schema) :=
  [("projects__overview", [("tags", multiSelectStringsDefinition)]),
   ("projects__full", [("_id", idDefinition), ("tags", multiSelectStringsDefinition)])]

/-- One full page living in database `0000` with a multi-select `tags`
field. -/
def viewStore : StoreState :=
  ⟨[{ id := "0001", parent := ⟨true, "0000"⟩, full := true, inTrash := false,
      createdTime := "", lastEditedTime := "",
      properties := [("tags", .multiSelect [⟨"personal"⟩])] }]⟩

/-- The repopulation the specification describes: on a miss the cache
is rebuilt from scratch out of one full discovery listing alone, never
on top of existing entries. Stated with the embedded listing walk for
comparison with the code's `fillDatabaseIdMap`. -/
def fillDatabaseIdMapSpec (children : List Block) (pfx : String) :
    List (String × String) :=
  fillDatabaseIdMap children pfx []

/-- A page whose parent is database `9999`, used to exercise the
wrong-collection guard against a name resolving to `0000`. -/
def mismatchStore : StoreState :=
  ⟨[{ id := "0001", parent := ⟨true, "9999"⟩, full := true, inTrash := false,
      createdTime := "", lastEditedTime := "", properties := [] }]⟩

/-! ## Association-list lemmas -/

theorem alGet_alSet {α : Type} (l : List (String × α)) (k k' : String) (v : α) :
    alGet (alSet l k v) k' = if k = k' then some v else alGet l k' := by
  induction l with
  | nil => by_cases h : k = k' <;> simp [alSet, alGet, h]
  | cons hd tl ih =>
    obtain ⟨k0, v0⟩ := hd
    by_cases h0 : k0 = k
    · subst h0
      by_cases h1 : k0 = k' <;> simp [alSet, alGet, h1]
    · by_cases h1 : k0 = k'
      · have hkk : ¬ k = k' := fun h => h0 (h1.trans h.symm)
        have hkk2 : ¬ k' = k := fun h => hkk h.symm
        simp [alSet, alGet, h0, h1, hkk, hkk2]
      · simp [alSet, alGet, h0, h1, ih]

/-! ## Codec theorems -/

theorem filesUrls_foldl (fs : List FileDescriptor) (acc : List String) :
    fs.foldl (fun acc file =>
      match resolveFileUrl file with
      | none => acc
      | some result => acc ++ [result]) acc = acc ++ fs.filterMap resolveFileUrl := by
  induction fs generalizing acc with
  | nil => simp
  | cons hd tl ih =>
    cases hres : resolveFileUrl hd <;>
      simp [List.filterMap_cons, hres, ih, List.append_assoc]

/-- C3: for the mutable codec projections, decoding the encoded value
returns the value: multi-select `.strings()` round-trips every name
list (in particular `['a','b']`), and date `.dateRange()` round-trips
every range (in particular `{start:'2024-01-01', end:'2024-01-02'}`). -/
theorem mutable_codec_roundtrip :
    (∀ xs : List String,
      multiSelectStringsHandler (multiSelectStringsComposer xs) = xs) ∧
    (∀ r : DateRange, dateRangeHandler (dateRangeComposer r) = r) ∧
    multiSelectStringsHandler (multiSelectStringsComposer ["a", "b"]) = ["a", "b"] ∧
    dateRangeHandler (dateRangeComposer ⟨"2024-01-01", "2024-01-02"⟩) =
      ⟨"2024-01-01", "2024-01-02"⟩ := by
  refine ⟨?_, ?_, rfl, rfl⟩
  · intro xs
    simp only [multiSelectStringsHandler, multiSelectStringsComposer, List.map_map]
    have hcomp : ((fun x : SelectOption => x.name) ∘ fun name => (⟨name⟩ : SelectOption)) =
        fun s : String => s := funext fun _ => rfl
    rw [hcomp]
    exact List.map_id xs
  · intro r
    rfl

/-- C9: the files `.urls()` projection yields the resolved URLs in
input order (internal file URL for hosted descriptors, external URL for
linked ones), dropping descriptors that yield no URL; on the
`[{file:{url:'u1'}}, {external:{url:'u2'}}, {}]` shape it yields
`['u1','u2']`. -/
theorem filesUrls_spec :
    (∀ fs : List FileDescriptor,
      filesUrlsHandler fs = fs.filterMap resolveFileUrl) ∧
    filesUrlsHandler [.internal "u1", .external "u2", .other] = ["u1", "u2"] := by
  refine ⟨?_, rfl⟩
  intro fs
  simpa [filesUrlsHandler] using filesUrls_foldl fs []

/-- C4 counterexample: composing `['c']` with
`multi_select().stringEnums('a','b')` fails with the fixed message
`Invalid status`, whose characters do not even include `'c'`, refuting
that the multi-select error lists the offending value. -/
theorem stringEnums_no_offending_value :
    multiSelectStringEnumsComposer ["a", "b"] ["c"] = .error "Invalid status" ∧
    multiSelectStringEnumsHandler ["a", "b"] [⟨"c"⟩] = .error "Invalid status" ∧
    'c' ∉ "Invalid status".data := by
  refine ⟨rfl, rfl, by decide⟩

/-- C4 (amended): select `.stringEnum` and multi-select `.stringEnums`
fail with an invalid-enum error on both decode and encode for values
outside the allow-list; the select error names the offending value but
the multi-select error is the constant `Invalid status`; values inside
the allow-list pass through unchanged. -/
theorem enum_codecs_validate :
    (∀ (values : List (Option String)) (v : Option SelectOption),
      values.contains (v.map (·.name)) = false →
      selectStringEnumHandler values v =
        .error ("Invalid status: " ++ jsShowOptString (v.map (·.name)))) ∧
    (∀ (values : List (Option String)) (v : Option SelectOption),
      values.contains (v.map (·.name)) = true →
      selectStringEnumHandler values v = .ok (v.map (·.name))) ∧
    (∀ (values : List (Option String)) (v : Option String),
      values.contains v = false →
      selectStringEnumComposer values v =
        .error ("Invalid status: " ++ jsShowOptString v)) ∧
    (∀ (values : List (Option String)) (s : String),
      values.contains (some s) = true → s ≠ "" →
      selectStringEnumComposer values (some s) = .ok (some ⟨s⟩)) ∧
    (∀ (values : List String) (os : List SelectOption),
      (os.map (·.name)).all (fun n => values.contains n) = false →
      multiSelectStringEnumsHandler values os = .error "Invalid status") ∧
    (∀ (values : List String) (os : List SelectOption),
      (os.map (·.name)).all (fun n => values.contains n) = true →
      multiSelectStringEnumsHandler values os = .ok (os.map (·.name))) ∧
    (∀ (values vs : List String),
      vs.all (fun n => values.contains n) = false →
      multiSelectStringEnumsComposer values vs = .error "Invalid status") ∧
    (∀ (values vs : List String),
      vs.all (fun n => values.contains n) = true →
      multiSelectStringEnumsComposer values vs =
        .ok (vs.map (fun name => ⟨name⟩))) := by
  refine ⟨?_, ?_, ?_, ?_, ?_, ?_, ?_, ?_⟩
  · intro values v h
    simp only [selectStringEnumHandler, h]
    rfl
  · intro values v h
    simp only [selectStringEnumHandler, h]
    rfl
  · intro values v h
    simp only [selectStringEnumComposer, h]
    rfl
  · intro values s h hs
    simp only [selectStringEnumComposer, h]
    simp [hs]
  · intro values os h
    simp only [multiSelectStringEnumsHandler, h]
    rfl
  · intro values os h
    simp only [multiSelectStringEnumsHandler, h]
    rfl
  · intro values vs h
    simp only [multiSelectStringEnumsComposer, h]
    rfl
  · intro values vs h
    simp only [multiSelectStringEnumsComposer, h]
    rfl

/-- C4 witness: the amended enum-validation theorem at concrete inputs:
`stringEnum('a','b')` decoding the wire option `'c'` fails naming `'c'`,
and `stringEnums('a','b')` composing the in-list `['a']` passes it
through. -/
theorem enum_codecs_validate_witness :
    selectStringEnumHandler [some "a", some "b"] (some ⟨"c"⟩) =
      .error "Invalid status: c" ∧
    multiSelectStringEnumsComposer ["a", "b"] ["a"] = .ok [⟨"a"⟩] :=
  ⟨enum_codecs_validate.1 [some "a", some "b"] (some ⟨"c"⟩) (by decide),
   enum_codecs_validate.2.2.2.2.2.2.2 ["a", "b"] ["a"] (by decide)⟩

/-! ## Client-construction theorems -/

/-- C5 counterexample: an options object supplying both members of both
exclusive pairs (a token and a pre-built client; a static table and a
container id) does not make construction fail — it succeeds, using the
pre-built client and the static table. -/
theorem construction_both_options_succeeds :
    createNotionDBClient
      { notionToken := some "tok", notionClient := some (.prebuilt "c"),
        dbPageId := some "pid", dbPfx := none,
        dbMap := some [("projects", "0000")] } =
      .ok (.prebuilt "c", .staticMap [("projects", "0000")]) := rfl

/-- C5 (amended): construction fails exactly when some exclusive pair
has neither option supplied; when both options of a pair are supplied
it succeeds, preferring the pre-built client over the token and the
static table over the container id. -/
theorem construction_option_pairs :
    (∀ opts : ClientOptions,
      ((opts.notionClient = none ∧ opts.notionToken = none) ∨
        (opts.dbMap = none ∧ opts.dbPageId = none)) ↔
        ∃ e, createNotionDBClient opts = .error e) ∧
    (∀ (opts : ClientOptions) (c : NotionClient) (m : List (String × String)),
      opts.notionClient = some c → opts.dbMap = some m →
      createNotionDBClient opts = .ok (c, .staticMap m)) := by
  constructor
  · intro opts
    obtain ⟨tok, cl, pid, pfx, dm⟩ := opts
    constructor
    · rintro (⟨hc, ht⟩ | ⟨hm, hp⟩)
      · simp only at hc ht
        subst hc; subst ht
        exact ⟨_, rfl⟩
      · simp only at hm hp
        subst hm; subst hp
        cases cl <;> cases tok <;> exact ⟨_, rfl⟩
    · rintro ⟨e, he⟩
      cases cl <;> cases tok <;> cases dm <;> cases pid <;>
        simp [createNotionDBClient, createClient, chooseResolverMode] at he ⊢
  · intro opts c m hc hm
    obtain ⟨tok, cl, pid, pfx, dm⟩ := opts
    simp only at hc hm
    subst hc; subst hm
    rfl

/-- C5 witness: the amended construction theorem at concrete inputs:
supplying neither token nor client fails, and supplying both a client
and a static table succeeds with that client and table. -/
theorem construction_option_pairs_witness :
    (∃ e, createNotionDBClient
      { notionToken := none, notionClient := none,
        dbPageId := some "pid", dbPfx := none, dbMap := none } = .error e) ∧
    createNotionDBClient
      { notionToken := none, notionClient := some (.prebuilt "k"),
        dbPageId := none, dbPfx := none, dbMap := some [] } =
      .ok (.prebuilt "k", .staticMap []) :=
  ⟨(construction_option_pairs.1 _).mp (Or.inl ⟨rfl, rfl⟩),
   construction_option_pairs.2 _ (.prebuilt "k") [] rfl rfl⟩

/-! ## Key-value projection theorems -/

theorem processKVGo_lookup (keyProp valueProp : String)
    (rows : List (List (String × DomainValue))) (acc : List (String × DomainValue))
    (h : ∀ row ∈ rows, (rowGet row keyProp).isString = true) :
    ∃ m, processKVGo keyProp valueProp rows acc = .ok m ∧
      ∀ k, alGet m k =
        match rows.reverse.find? (fun row => decide (rowGet row keyProp = .str k)) with
        | some row => some (rowGet row valueProp)
        | none => alGet acc k := by
  induction rows generalizing acc with
  | nil => exact ⟨acc, rfl, fun k => rfl⟩
  | cons row rest ih =>
    have hrow : (rowGet row keyProp).isString = true := h row (List.mem_cons_self _ _)
    obtain ⟨k0, hk0⟩ : ∃ k0, rowGet row keyProp = .str k0 := by
      cases hval : rowGet row keyProp <;> simp [hval, DomainValue.isString] at hrow ⊢
    have hrest : ∀ r ∈ rest, (rowGet r keyProp).isString = true :=
      fun r hr => h r (List.mem_cons_of_mem _ hr)
    obtain ⟨m, hm, hl⟩ := ih (alSet acc k0 (rowGet row valueProp)) hrest
    refine ⟨m, ?_, ?_⟩
    · simpa [processKVGo, hk0] using hm
    · intro k
      rw [hl k]
      have hrev : (row :: rest).reverse = rest.reverse ++ [row] := by simp
      rw [hrev, List.find?_append]
      cases hfind : rest.reverse.find? (fun r => decide (rowGet r keyProp = .str k)) with
      | some r => rfl
      | none =>
        simp only [Option.none_or]
        rw [alGet_alSet]
        by_cases hk : k0 = k
        · subst hk
          simp [List.find?, hk0]
        · have : ¬ rowGet row keyProp = .str k := by
            rw [hk0]; intro hcon; exact hk (by injection hcon)
          simp [List.find?, this, hk]

/-- C10: when every decoded record's key field decodes to a string, the
key-value projection succeeds (duplicate keys never raise an error) and
binds each key to the value of the record appearing last in query
order, silently overwriting earlier records with the same key. -/
theorem processKVResults_last_wins (keyProp valueProp : String)
    (rows : List (List (String × DomainValue)))
    (h : ∀ row ∈ rows, (rowGet row keyProp).isString = true) :
    ∃ m, processKVResults rows keyProp valueProp = .ok m ∧
      ∀ k, alGet m k =
        (rows.reverse.find? (fun row => decide (rowGet row keyProp = .str k))).map
          (fun row => rowGet row valueProp) := by
  obtain ⟨m, hm, hl⟩ := processKVGo_lookup keyProp valueProp rows [] h
  refine ⟨m, hm, fun k => ?_⟩
  rw [hl k]
  cases rows.reverse.find? (fun row => decide (rowGet row keyProp = .str k)) <;>
    simp [alGet]

/-- C10 witness: two records decoding to the same key `'x'`; the
projection succeeds and the later record's value `2` overwrites the
earlier `1`. -/
theorem processKVResults_last_wins_witness :
    ∃ m, processKVResults
        [[("k", .str "x"), ("v", .num 1)], [("k", .str "x"), ("v", .num 2)]]
        "k" "v" = .ok m ∧ alGet m "x" = some (.num 2) := by
  obtain ⟨m, hm, hl⟩ := processKVResults_last_wins "k" "v"
    [[("k", .str "x"), ("v", .num 1)], [("k", .str "x"), ("v", .num 2)]]
    (by intro row hr; fin_cases hr <;> rfl)
  refine ⟨m, hm, ?_⟩
  rw [hl "x"]
  rfl


/-! ## Resolver key theorems -/

/-- C8: physical-collection resolution (static-table and discovery
modes alike) uses only the base-name portion before the `__` delimiter,
while the schema registry is keyed by the full logical name: two names
sharing a base name resolve to the same physical id yet decode under
different schema definitions. -/
theorem resolution_uses_base_name :
    (∀ (dbMap : List (String × String)) (n1 n2 : String) (R : Type)
        (cb : String → Except String R),
      baseName n1 = baseName n2 →
      useDatabaseStatic dbMap n1 cb = useDatabaseStatic dbMap n2 cb) ∧
    (∀ (children : List Block) (pfx : String) (cache : List (String × String))
        (n1 n2 : String) (R : Type) (cb : String → Except String R),
      baseName n1 = baseName n2 →
      useDatabaseDiscovery children pfx cache n1 cb =
        useDatabaseDiscovery children pfx cache n2 cb) ∧
    baseName "projects__overview" = baseName "projects__full" ∧
    query [("projects", "0000")] viewSchemas viewStore "projects__overview" =
      .ok [[("tags", .strs ["personal"])]] ∧
    query [("projects", "0000")] viewSchemas viewStore "projects__full" =
      .ok [[("_id", .str "0001"), ("tags", .strs ["personal"])]] ∧
    ([[("tags", DomainValue.strs ["personal"])]] :
        List (List (String × DomainValue))) ≠
      [[("_id", .str "0001"), ("tags", .strs ["personal"])]] := by
  refine ⟨?_, ?_, rfl, rfl, rfl, by decide⟩
  · intro dbMap n1 n2 R cb h
    unfold useDatabaseStatic
    rw [h]
  · intro children pfx cache n1 n2 R cb h
    unfold useDatabaseDiscovery
    rw [h]

/-- C8 witness: the base-name resolution theorem applied to the two
concrete view names, which share the base `projects`. -/
theorem resolution_uses_base_name_witness :
    useDatabaseStatic [("projects", "0000")] "projects__overview" Except.ok =
      useDatabaseStatic [("projects", "0000")] "projects__full" Except.ok :=
  resolution_uses_base_name.1 [("projects", "0000")] "projects__overview"
    "projects__full" String Except.ok rfl

/-! ## Record-transcoder theorems -/

theorem ebind_ok {α β : Type} (x : α) (f : α → Except String β) :
    (Except.ok x : Except String α) >>= f = f x := rfl

theorem ebind_error {α β : Type} (e : String) (f : α → Except String β) :
    (Except.error e : Except String α) >>= f = (.error e : Except String β) := rfl

theorem processRow_append (page : Page) (l1 l2 : List (String × PropertyDefinition)) :
    processRow page (l1 ++ l2) =
      processRow page l1 >>= fun m1 =>
      processRow page l2 >>= fun m2 => .ok (m1 ++ m2) := by
  induction l1 with
  | nil =>
    cases h2 : processRow page l2 <;>
      simp [processRow, ebind_ok, ebind_error, h2]
  | cons hd t ih =>
    obtain ⟨key, d⟩ := hd
    simp only [List.cons_append, processRow]
    cases hf : processField page key d with
    | error e => simp [ebind_error]
    | ok v =>
      simp only [ebind_ok, List.append_eq]
      rw [ih]
      cases ht : processRow page t with
      | error e => simp [ebind_error]
      | ok m1 =>
        simp only [ebind_ok]
        cases h2 : processRow page l2 with
        | error e => simp [ebind_error]
        | ok m2 => simp [ebind_ok, List.cons_append]

theorem processField_not_found (page : Page) (key : String)
    (d : PropertyDefinition) (hmeta : isMetadataType d.type = false)
    (h : alGet page.properties key = none) :
    processField page key d = .error ("Property " ++ key ++ " is not found") := by
  simp only [processField]
  rw [if_neg (by simp [hmeta]), h]

theorem processField_mismatch (page : Page) (key : String)
    (d : PropertyDefinition) (w : WireValue)
    (hmeta : isMetadataType d.type = false)
    (h : alGet page.properties key = some w) (htag : w.tag ≠ d.type) :
    processField page key d =
      .error ("Property " ++ key ++ " type mismatch: " ++ w.tag ++ " !== " ++ d.type) := by
  simp only [processField]
  rw [if_neg (by simp [hmeta]), h]
  simp [htag]

theorem processRow_cons_ok (page : Page) (key : String) (d : PropertyDefinition)
    (t : List (String × PropertyDefinition)) (m : List (String × DomainValue))
    (hok : processRow page ((key, d) :: t) = .ok m) :
    ∃ m', processRow page t = .ok m' := by
  simp only [processRow] at hok
  cases hf : processField page key d with
  | error e => rw [hf, ebind_error] at hok; simp at hok
  | ok v =>
    rw [hf, ebind_ok] at hok
    cases ht : processRow page t with
    | error e => rw [ht, ebind_error] at hok; simp at hok
    | ok m2 => exact ⟨m2, rfl⟩

theorem processRow_ok_fields (page : Page)
    (schema : List (String × PropertyDefinition))
    (m : List (String × DomainValue)) (hok : processRow page schema = .ok m) :
    ∀ kd ∈ schema, isMetadataType kd.2.type = false →
      ∃ w, alGet page.properties kd.1 = some w ∧ w.tag = kd.2.type := by
  induction schema generalizing m with
  | nil =>
    rintro kd hkd
    cases hkd
  | cons hd t ih =>
    obtain ⟨key, d⟩ := hd
    rintro ⟨k, dd⟩ hkd hmeta
    rcases List.mem_cons.mp hkd with heq | hmem
    · injection heq with h1 h2
      subst h1
      subst h2
      simp only at hmeta
      have hf : ∃ v, processField page k dd = .ok v := by
        simp only [processRow] at hok
        cases hf2 : processField page k dd with
        | error e => rw [hf2, ebind_error] at hok; simp at hok
        | ok v => exact ⟨v, rfl⟩
      obtain ⟨v, hv⟩ := hf
      simp only [processField] at hv
      rw [if_neg (by simp [hmeta])] at hv
      cases halGet : alGet page.properties k with
      | none => rw [halGet] at hv; simp at hv
      | some property =>
        by_cases htag : property.tag = dd.type
        · exact ⟨property, rfl, htag⟩
        · rw [halGet] at hv
          simp [htag] at hv
    · obtain ⟨m2, hm2⟩ := processRow_cons_ok page key d t m hok
      exact ih m2 hm2 ⟨k, dd⟩ hmem hmeta

/-- C2: record decode is all-or-nothing: the decode succeeds only when
every declared non-metadata field is present with the declared wire tag;
when the first failing field is absent the decode fails with
`Property <name> is not found`, and when its wire tag differs the decode
fails with `Property <name> type mismatch: <actual> !== <expected>`,
naming the field and both tags, and no partial record is returned. -/
theorem processRow_all_or_nothing :
    (∀ (page : Page) (schema : List (String × PropertyDefinition))
        (m : List (String × DomainValue)),
      processRow page schema = .ok m →
      ∀ kd ∈ schema, isMetadataType kd.2.type = false →
        ∃ w, alGet page.properties kd.1 = some w ∧ w.tag = kd.2.type) ∧
    (∀ (page : Page) (pre : List (String × PropertyDefinition)) (key : String)
        (d : PropertyDefinition) (rest : List (String × PropertyDefinition))
        (m0 : List (String × DomainValue)),
      processRow page pre = .ok m0 →
      isMetadataType d.type = false →
      alGet page.properties key = none →
      processRow page (pre ++ (key, d) :: rest) =
        .error ("Property " ++ key ++ " is not found")) ∧
    (∀ (page : Page) (pre : List (String × PropertyDefinition)) (key : String)
        (d : PropertyDefinition) (rest : List (String × PropertyDefinition))
        (m0 : List (String × DomainValue)) (w : WireValue),
      processRow page pre = .ok m0 →
      isMetadataType d.type = false →
      alGet page.properties key = some w →
      w.tag ≠ d.type →
      processRow page (pre ++ (key, d) :: rest) =
        .error ("Property " ++ key ++ " type mismatch: " ++
          w.tag ++ " !== " ++ d.type)) := by
  refine ⟨processRow_ok_fields, ?_, ?_⟩
  · intro page pre key d rest m0 hpre hmeta halGet
    rw [processRow_append, hpre, ebind_ok]
    simp only [processRow, processField_not_found page key d hmeta halGet,
      ebind_error]
  · intro page pre key d rest m0 w hpre hmeta halGet htag
    rw [processRow_append, hpre, ebind_ok]
    simp only [processRow, processField_mismatch page key d w hmeta halGet htag,
      ebind_error]

/-- C2 witness: the all-or-nothing theorem at concrete inputs: a page
lacking the declared `tags` field fails with the field-not-found
message, and a page whose `done` field carries a multi-select payload
under a `checkbox` declaration fails naming both tags. -/
theorem processRow_all_or_nothing_witness :
    processRow
      { id := "0001", parent := ⟨true, "0000"⟩, full := true, inTrash := false,
        createdTime := "", lastEditedTime := "", properties := [] }
      [("tags", multiSelectStringsDefinition)] =
      .error "Property tags is not found" ∧
    processRow
      { id := "0001", parent := ⟨true, "0000"⟩, full := true, inTrash := false,
        createdTime := "", lastEditedTime := "",
        properties := [("done", .multiSelect [])] }
      [("done", checkboxDefinition)] =
      .error "Property done type mismatch: multi_select !== checkbox" :=
  ⟨processRow_all_or_nothing.2.1 _ [] "tags" multiSelectStringsDefinition [] []
      rfl rfl rfl,
   processRow_all_or_nothing.2.2 _ [] "done" checkboxDefinition [] []
      (.multiSelect []) rfl rfl rfl (by decide)⟩

/-! ## Encoder theorems -/

theorem createMutateData_append (schema : Schema)
    (l1 l2 : List (String × DomainValue)) :
    createMutateData schema (l1 ++ l2) =
      createMutateData schema l1 >>= fun p1 =>
      createMutateData schema l2 >>= fun p2 =>
      .ok ⟨p1.metaParams ++ p2.metaParams, p1.properties ++ p2.properties⟩ := by
  induction l1 with
  | nil =>
    cases h2 : createMutateData schema l2 <;>
      simp [createMutateData, ebind_ok, ebind_error, h2]
  | cons hd t ih =>
    obtain ⟨key, value⟩ := hd
    simp only [List.cons_append, createMutateData]
    cases hf : composeField schema key value with
    | error e => simp [ebind_error]
    | ok kw =>
      simp only [ebind_ok, List.append_eq]
      rw [ih]
      cases ht : createMutateData schema t with
      | error e => simp [ebind_error]
      | ok p1 =>
        simp only [ebind_ok]
        cases h2 : createMutateData schema l2 with
        | error e => simp [ebind_error]
        | ok p2 =>
          simp only [ebind_ok]
          by_cases hb : kw.1 = true <;> simp [hb, List.cons_append]

theorem composeField_no_composer (schema : Schema) (key : String)
    (value : DomainValue) (d : PropertyDefinition)
    (h : alGet schema key = some d) (hc : d.composer = none) :
    composeField schema key value =
      .error ("Cannot mutate property '" ++ key ++ "' of type '" ++
        d.type ++ "': it has no composer") := by
  simp [composeField, h, hc]

theorem composeField_ok_inv (schema : Schema) (key : String)
    (value : DomainValue) (kw : Bool × String × WireValue)
    (h : composeField schema key value = .ok kw) :
    ∃ d c w, alGet schema key = some d ∧ d.composer = some c ∧
      c value = .ok w ∧
      ((isMetadataType d.type = true ∧ kw = (true, d.type.drop 2, w)) ∨
       (isMetadataType d.type = false ∧ kw = (false, key, w))) := by
  cases halGet : alGet schema key with
  | none =>
    have hcf : composeField schema key value =
        .error "TypeError: Cannot use 'in' operator to search for 'composer' in undefined" := by
      simp [composeField, halGet]
    rw [hcf] at h
    simp at h
  | some d =>
    cases hc : d.composer with
    | none =>
      have hcf : composeField schema key value =
          .error ("Cannot mutate property '" ++ key ++ "' of type '" ++
            d.type ++ "': it has no composer") := by
        simp [composeField, halGet, hc]
      rw [hcf] at h
      simp at h
    | some c =>
      cases hw : c value with
      | error e =>
        have hcf : composeField schema key value = .error e := by
          simp [composeField, halGet, hc, hw, ebind_error]
        rw [hcf] at h
        simp at h
      | ok w =>
        by_cases hmeta : isMetadataType d.type = true
        · have hcf : composeField schema key value =
              .ok (true, d.type.drop 2, w) := by
            simp [composeField, halGet, hc, hw, ebind_ok, hmeta]
          rw [hcf] at h
          exact ⟨d, c, w, rfl, hc, hw, Or.inl ⟨hmeta, (Except.ok.inj h).symm⟩⟩
        · have hcf : composeField schema key value = .ok (false, key, w) := by
            simp [composeField, halGet, hc, hw, ebind_ok, hmeta]
          rw [hcf] at h
          exact ⟨d, c, w, rfl, hc, hw,
            Or.inr ⟨eq_false_of_ne_true hmeta, (Except.ok.inj h).symm⟩⟩

theorem composeField_ok_of (schema : Schema) (key : String)
    (value : DomainValue) (d : PropertyDefinition)
    (c : DomainValue → Except String WireValue) (w : WireValue)
    (h : alGet schema key = some d) (hc : d.composer = some c)
    (hmeta : isMetadataType d.type = false) (hw : c value = .ok w) :
    composeField schema key value = .ok (false, key, w) := by
  simp [composeField, h, hc, hw, hmeta, ebind_ok]

theorem createMutateData_ok_2 (schema : Schema)
    (data : List (String × DomainValue)) (out : MutateParameters)
    (hok : createMutateData schema data = .ok out) :
    (∀ kw ∈ out.properties, ∃ v d c,
      (kw.1, v) ∈ data ∧ alGet schema kw.1 = some d ∧
      isMetadataType d.type = false ∧ d.composer = some c ∧ c v = .ok kw.2) ∧
    (∀ kv ∈ data, ∀ (d : PropertyDefinition)
        (c : DomainValue → Except String WireValue),
      alGet schema kv.1 = some d → d.composer = some c →
      isMetadataType d.type = false →
      ∃ w, c kv.2 = .ok w ∧ (kv.1, w) ∈ out.properties) := by
  induction data generalizing out with
  | nil =>
    simp only [createMutateData] at hok
    obtain rfl := Except.ok.inj hok
    constructor
    · rintro kw hkw
      cases hkw
    · rintro kv hkv
      cases hkv
  | cons hd t ih =>
    obtain ⟨key, value⟩ := hd
    simp only [createMutateData] at hok
    cases hf : composeField schema key value with
    | error e => rw [hf, ebind_error] at hok; simp at hok
    | ok kw =>
      rw [hf, ebind_ok] at hok
      cases ht : createMutateData schema t with
      | error e => rw [ht, ebind_error] at hok; simp at hok
      | ok params =>
        rw [ht, ebind_ok] at hok
        obtain rfl := Except.ok.inj hok
        obtain ⟨ihA, ihB⟩ := ih params ht
        obtain ⟨d, c, w, halGet, hc, hw, hshape⟩ :=
          composeField_ok_inv schema key value kw hf
        constructor
        · intro kw2 hkw2
          rcases hshape with ⟨hmeta, rfl⟩ | ⟨hmeta, rfl⟩
          · simp only [if_pos rfl] at hkw2
            obtain ⟨v2, d2, c2, hmem, hrest⟩ := ihA kw2 hkw2
            exact ⟨v2, d2, c2, List.mem_cons_of_mem _ hmem, hrest⟩
          · simp only [Bool.false_eq_true, if_neg (fun h => h)] at hkw2
            rcases List.mem_cons.mp hkw2 with heq | hmem2
            · subst heq
              exact ⟨value, d, c, List.mem_cons_self _ _, halGet, hmeta, hc, hw⟩
            · obtain ⟨v2, d2, c2, hmem, hrest⟩ := ihA kw2 hmem2
              exact ⟨v2, d2, c2, List.mem_cons_of_mem _ hmem, hrest⟩
        · rintro ⟨k2, v2⟩ hkv2 d2 c2 halGet2 hc2 hmeta2
          rcases List.mem_cons.mp hkv2 with heq | hmem2
          · injection heq with he1 he2
            subst he1
            subst he2
            have hd2 : d2 = d := by
              have := halGet.symm.trans halGet2
              exact (Option.some.inj this).symm
            subst hd2
            have hc2' : c2 = c := by
              have := hc.symm.trans hc2
              exact (Option.some.inj this).symm
            subst hc2'
            refine ⟨w, hw, ?_⟩
            rcases hshape with ⟨hmeta, rfl⟩ | ⟨hmeta, rfl⟩
            · rw [hmeta] at hmeta2
              cases hmeta2
            · simp only [Bool.false_eq_true, if_neg (fun h => h)]
              exact List.mem_cons_self _ _
          · obtain ⟨w2, hw2, hmem3⟩ := ihB ⟨k2, v2⟩ hmem2 d2 c2 halGet2 hc2 hmeta2
            refine ⟨w2, hw2, ?_⟩
            rcases hshape with ⟨hmeta, rfl⟩ | ⟨hmeta, rfl⟩
            · simpa using hmem3
            · simp only [Bool.false_eq_true, if_neg (fun h => h)]
              exact List.mem_cons_of_mem _ hmem3

/-- C6: encode iterates exactly the supplied patch keys: a supplied key
whose definition has no composer fails with
`Cannot mutate property '<key>' of type '<type>': it has no composer`
naming the field; every supplied key with a composer has the composer's
output written under its wire name; and every emitted property stems
from a supplied key's composer, so unsupplied keys never appear. -/
theorem createMutateData_spec :
    (∀ (schema : Schema) (pre : List (String × DomainValue)) (key : String)
        (v : DomainValue) (rest : List (String × DomainValue))
        (p0 : MutateParameters) (d : PropertyDefinition),
      createMutateData schema pre = .ok p0 →
      alGet schema key = some d →
      d.composer = none →
      createMutateData schema (pre ++ (key, v) :: rest) =
        .error ("Cannot mutate property '" ++ key ++ "' of type '" ++
          d.type ++ "': it has no composer")) ∧
    (∀ (schema : Schema) (data : List (String × DomainValue))
        (out : MutateParameters),
      createMutateData schema data = .ok out →
      (∀ kw ∈ out.properties, ∃ v d c,
        (kw.1, v) ∈ data ∧ alGet schema kw.1 = some d ∧
        isMetadataType d.type = false ∧ d.composer = some c ∧ c v = .ok kw.2) ∧
      (∀ kv ∈ data, ∀ (d : PropertyDefinition)
          (c : DomainValue → Except String WireValue),
        alGet schema kv.1 = some d → d.composer = some c →
        isMetadataType d.type = false →
        ∃ w, c kv.2 = .ok w ∧ (kv.1, w) ∈ out.properties)) := by
  refine ⟨?_, createMutateData_ok_2⟩
  intro schema pre key v rest p0 d hpre halGet hc
  rw [createMutateData_append, hpre, ebind_ok]
  simp only [createMutateData,
    composeField_no_composer schema key v d halGet hc, ebind_error]

/-- C6 witness: the encoder theorem at concrete inputs: patching the
read-only `_id` field fails with the no-composer message naming it, and
patching the composable `tags` field emits the composed wire value
under the `tags` wire name. -/
theorem createMutateData_spec_witness :
    createMutateData [("_id", idDefinition), ("tags", multiSelectStringsDefinition)]
      [("_id", DomainValue.str "x")] =
      .error "Cannot mutate property '_id' of type '__id': it has no composer" ∧
    ∃ w, ("tags", w) ∈
      ([("tags", WireValue.multiSelect [⟨"a"⟩])] : List (String × WireValue)) := by
  constructor
  · exact createMutateData_spec.1
      [("_id", idDefinition), ("tags", multiSelectStringsDefinition)]
      [] "_id" (.str "x") [] ⟨[], []⟩ idDefinition rfl rfl rfl
  · obtain ⟨w, hw, hmem⟩ :=
      (createMutateData_spec.2 [("tags", multiSelectStringsDefinition)]
        [("tags", DomainValue.strs ["a"])]
        ⟨[], [("tags", WireValue.multiSelect [⟨"a"⟩])]⟩ rfl).2
        ("tags", DomainValue.strs ["a"]) (List.mem_singleton.mpr rfl)
        multiSelectStringsDefinition _ rfl rfl rfl
    exact ⟨w, hmem⟩

/-! ## Discovery-cache theorems -/


/-- C1 counterexample: with cache `{a ↦ 1}` and a discovery listing
containing only `db: b`, resolving `b` misses the cache and merges the
listing into the existing entries: the cache afterwards still holds the
stale `a ↦ 1` pair absent from the listing, differing from the
from-scratch repopulation the claim requires. -/
theorem discovery_fill_not_from_scratch :
    (getDatabaseId [.childDatabase "db: b" "2"] "db: " [("a", "1")] "b").2 =
      [("a", "1"), ("b", "2")] ∧
    (useDatabaseDiscovery [.childDatabase "db: b" "2"] "db: " [("a", "1")] "b"
      Except.ok).2 = [("a", "1"), ("b", "2")] ∧
    fillDatabaseIdMapSpec [.childDatabase "db: b" "2"] "db: " = [("b", "2")] ∧
    (getDatabaseId [.childDatabase "db: b" "2"] "db: " [("a", "1")] "b").2 ≠
      fillDatabaseIdMapSpec [.childDatabase "db: b" "2"] "db: " :=
  ⟨rfl, rfl, rfl, by decide⟩

/-- C1 (amended): the discovery resolver clears the entire cache before
any error propagates out of an operation run with a resolved id; on a
cache miss one full discovery listing is merged into the existing cache
(overwriting listed names, retaining existing entries absent from the
listing — not a from-scratch rebuild) before the name is looked up
again, failing with `Database not found` if still absent. -/
theorem discovery_cache_discipline :
    (∀ (R : Type) (children : List Block) (pfx : String)
        (cache : List (String × String)) (name : String)
        (cb : String → Except String R) (id : String)
        (cache1 : List (String × String)) (e : String),
      getDatabaseId children pfx cache (baseName name) = (.ok id, cache1) →
      cb id = .error e →
      useDatabaseDiscovery children pfx cache name cb = (.error e, [])) ∧
    (∀ (children : List Block) (pfx : String)
        (cache : List (String × String)) (rawName : String),
      alGet cache rawName = none →
      (getDatabaseId children pfx cache rawName).2 =
        fillDatabaseIdMap children pfx cache) ∧
    (∀ (children : List Block) (pfx : String)
        (cache : List (String × String)) (rawName : String),
      alGet cache rawName = none →
      alGet (fillDatabaseIdMap children pfx cache) rawName = none →
      (getDatabaseId children pfx cache rawName).1 =
        .error "Database not found") := by
  refine ⟨?_, ?_, ?_⟩
  · intro R children pfx cache name cb id cache1 e hres hcb
    simp only [useDatabaseDiscovery, hres, hcb]
  · intro children pfx cache rawName h
    simp only [getDatabaseId, h, Option.isSome_none, Bool.false_eq_true, if_false]
    cases halGet : alGet (fillDatabaseIdMap children pfx cache) rawName with
    | none => simp [halGet]
    | some id => by_cases hid : id = "" <;> simp [halGet, hid]
  · intro children pfx cache rawName h h2
    simp [getDatabaseId, h, h2]

/-- C1 witness: the amended cache-discipline theorem at concrete
inputs: a failing callback clears the freshly populated cache, and a
name absent even after the discovery listing fails with
`Database not found`. -/
theorem discovery_cache_discipline_witness :
    useDatabaseDiscovery [Block.childDatabase "db: a" "1"] "db: " [] "a"
      (fun _ => (.error "boom" : Except String Unit)) = (.error "boom", []) ∧
    (getDatabaseId [Block.childDatabase "db: a" "1"] "db: " [] "missing").1 =
      .error "Database not found" :=
  ⟨discovery_cache_discipline.1 Unit [Block.childDatabase "db: a" "1"] "db: "
      [] "a" (fun _ => (.error "boom" : Except String Unit)) "1" [("a", "1")]
      "boom" rfl rfl,
   discovery_cache_discipline.2.2 [Block.childDatabase "db: a" "1"] "db: "
      [] "missing" rfl rfl⟩

/-! ## By-id operation theorems -/

/-- C7: every by-id operation resolves the logical name, fetches the
record, and fails with `Page not found in database` when the record's
parent is not exactly the resolved collection; for update and delete
the check precedes any mutation, so the store state is returned
unchanged. -/
theorem wrong_collection_guard :
    ∀ (dbMap : List (String × String)) (schemas : List (String × Schema))
      (st : StoreState) (db pageId : String)
      (data : List (String × DomainValue)) (id : String) (page : Page),
      alGet dbMap (baseName db) = some id →
      st.pages.find? (fun p => p.id = pageId) = some page →
      page.full = true →
      ¬ (page.parent.isDatabase = true ∧ page.parent.databaseId = id) →
      queryOneById dbMap schemas st db pageId =
        .error "Page not found in database" ∧
      updateEntry dbMap schemas st db pageId data =
        (.error "Page not found in database", st) ∧
      deleteEntry dbMap st db pageId =
        (.error "Page not found in database", st) := by
  intro dbMap schemas st db pageId data id page hres hfind hfull hparent
  have hret : retrievePage st pageId = .ok page := by
    simp [retrievePage, hfind]
  have hassert : assertPageInDatabase dbMap st db pageId =
      .error "Page not found in database" := by
    simp only [assertPageInDatabase, useDatabaseStatic, hres, hret]
    simp [hfull, hparent]
  refine ⟨?_, ?_, ?_⟩
  · simp only [queryOneById, useDatabaseStatic, hres, hret]
    simp [hfull, hparent]
  · simp [updateEntry, hassert]
  · simp [deleteEntry, hassert]


/-- C7 witness: the wrong-collection theorem at concrete inputs: the
page `0001` lives in database `9999`, the name `projects` resolves to
`0000`, and all three by-id operations fail leaving the store as it
was. -/
theorem wrong_collection_guard_witness :
    queryOneById [("projects", "0000")] [] mismatchStore "projects" "0001" =
      .error "Page not found in database" ∧
    updateEntry [("projects", "0000")] [] mismatchStore "projects" "0001" [] =
      (.error "Page not found in database", mismatchStore) ∧
    deleteEntry [("projects", "0000")] mismatchStore "projects" "0001" =
      (.error "Page not found in database", mismatchStore) :=
  wrong_collection_guard [("projects", "0000")] [] mismatchStore "projects"
    "0001" [] "0000"
    { id := "0001", parent := ⟨true, "9999"⟩, full := true, inTrash := false,
      createdTime := "", lastEditedTime := "", properties := [] }
    rfl rfl rfl (by decide)

end NotionCMS
